import Mathlib

/-!
Shallow embedding of `Sudoku.py` (class `Sudoku`): a 9×9 sudoku board with a
backtracking solver.  The Python object stores the board *column-wise*
(`self.solution = zip(*board)`), so in the embedded `Grid` the first index is
the stored column (= external column of the input) and the second index is the
stored row (= external row of the input).  Cell values are `Option Nat`
(`None` ↦ `none`, digit `d` ↦ `some d`).  The recursive solver is embedded
with an explicit fuel parameter; a result of `none` means the fuel was
exhausted, `some r` means the Python code returns `r`.
-/

/-- A grid as Python stores it: a list of lists of optional digits. -/
abbrev Grid := List (List (Option Nat))

/-- `getCell g x y` is Python's `g[x][y]` (total, defaulting to `none`). -/
def getCell (g : Grid) (x y : Nat) : Option Nat :=
  (g.getD x []).getD y none

/-- `setCell g x y v` is Python's `g[x][y] = v` (no-op out of range). -/
def setCell (g : Grid) (x y : Nat) (v : Option Nat) : Grid :=
  g.set x ((g.getD x []).set y v)

/-- The cell of external row `r`, column `c` in the transposed storage:
`solution[c][r]`. -/
def cellExt (g : Grid) (r c : Nat) : Option Nat :=
  getCell g c r

/-- A well-formed 9×9 grid (9 lists of 9 entries). -/
def wf (g : Grid) : Prop :=
  g.length = 9 ∧ ∀ col ∈ g, col.length = 9

instance (g : Grid) : Decidable (wf g) := by
  unfold wf; infer_instance

/-- Python's `zip(*rows)`: transpose, truncating to the shortest row
(`zip` stops at the shortest iterable; `zip()` of nothing is empty). -/
def pyZip (rows : List (List (Option Nat))) : List (List (Option Nat)) :=
  match rows with
  | [] => []
  | r0 :: rest =>
    (List.range (rest.foldl (fun m r => min m r.length) r0.length)).map
      (fun k => (r0 :: rest).map (fun r => r.getD k none))

/-- Python's `int(e) if e else None` applied to a cell: `None` and `0` are
falsy and become `None`; any other value is kept. -/
def coerceCell : Option Nat → Option Nat
  | none => none
  | some 0 => none
  | some (n + 1) => some (n + 1)

/-- The `Sudoku` object: `initial_board` and `solution` grids
(both stored column-wise). -/
structure Sudoku where
  initial_board : Grid
  solution : Grid
deriving DecidableEq, Repr

/-- `Sudoku.__init__`: both grids are the transposed, truthiness-coerced copy
of the input `board` (a list of rows). -/
def Sudoku.init (board : List (List (Option Nat))) : Sudoku :=
  ⟨(pyZip board).map (List.map coerceCell), (pyZip board).map (List.map coerceCell)⟩

/-- `get_row(idx)`: `[column[idx] for column in self.solution]`. -/
def get_row (g : Grid) (idx : Nat) : List (Option Nat) :=
  g.map (fun column => column.getD idx none)

/-- `get_column(idx)`: `self.solution[idx]`. -/
def get_column (g : Grid) (idx : Nat) : List (Option Nat) :=
  g.getD idx []

/-- `get_nine_square(x, y)`:
`[row[3y : 3y+3] for row in self.solution[3x : 3x+3]]`. -/
def get_nine_square (g : Grid) (x y : Nat) : List (List (Option Nat)) :=
  ((g.drop (3 * x)).take 3).map (fun row => (row.drop (3 * y)).take 3)

/-- Python's `set(range(1, 10))`, living in the `Option Nat` universe of cell
values (an int is never equal to `None`). -/
def nineSet : Finset (Option Nat) :=
  ((List.range' 1 9).map some).toFinset

/-- `check_row(row)`: `set(self.get_row(row)) == set(range(1, 10))`. -/
def check_row (g : Grid) (row : Nat) : Bool :=
  decide ((get_row g row).toFinset = nineSet)

/-- `check_column(column)`: `set(self.get_column(column)) == set(range(1, 10))`. -/
def check_column (g : Grid) (column : Nat) : Bool :=
  decide ((get_column g column).toFinset = nineSet)

/-- `check_nine_square(x, y)`: set of the flattened 3×3 square equals
`set(range(1, 10))`. -/
def check_nine_square (g : Grid) (x y : Nat) : Bool :=
  decide (((get_nine_square g x y).flatten).toFinset = nineSet)

/-- `check()`: all rows and columns, then all nine squares. -/
def check (g : Grid) : Bool :=
  ((List.range 9).all fun idx => check_row g idx && check_column g idx)
    && ((List.range 3).all fun x => (List.range 3).all fun y => check_nine_square g x y)

/-- Inner loop of `find_empty`: `for j in range(9): if solution[j][i] is None:
return (j, i)`, with the list of `j` values still to scan explicit. -/
def findInCol (g : Grid) (i : Nat) : List Nat → Option (Nat × Nat)
  | [] => none
  | j :: js => if getCell g j i = none then some (j, i) else findInCol g i js

/-- Outer loop of `find_empty` over the `i` values still to scan. -/
def findEmptyAux (g : Grid) : List Nat → Option (Nat × Nat)
  | [] => none
  | i :: is' =>
    match findInCol g i (List.range 9) with
    | some p => some p
    | none => findEmptyAux g is'

/-- `find_empty()`: scan `i` in `range(9)` (outer), `j` in `range(9)` (inner),
return the first `(j, i)` with `solution[j][i] is None`, else `None`. -/
def find_empty (g : Grid) : Option (Nat × Nat) :=
  findEmptyAux g (List.range 9)

/-- `is_valid(num, pos)`: `num` must not occur in `get_row(pos[1])`, in
`get_column(pos[0])`, nor in the flattened `get_nine_square(pos[0]//3,
pos[1]//3)`. -/
def is_valid (g : Grid) (num : Nat) (pos : Nat × Nat) : Bool :=
  if (get_row g pos.2).contains (some num) then false
  else if (get_column g pos.1).contains (some num) then false
  else if ((get_nine_square g (pos.1 / 3) (pos.2 / 3)).flatten).contains (some num) then false
  else true

/-- The `for num in range(1, 10)` loop of `backtrack_solve`, with the
recursive call abstracted as `bt`.  State is threaded explicitly: a skipped
candidate keeps the grid, a failed recursion undoes with
`solution[col][row] = None` on the grid the recursion left behind. -/
def tryNums (bt : Grid → Option (Bool × Grid)) (row col : Nat) :
    Grid → List Nat → Option (Bool × Grid)
  | g, [] => some (false, g)
  | g, num :: rest =>
    if is_valid g num (col, row) then
      match bt (setCell g col row (some num)) with
      | none => none
      | some (true, g2) => some (true, g2)
      | some (false, g2) => tryNums bt row col (setCell g2 col row none) rest
    else tryNums bt row col g rest

/-- `backtrack_solve()` with fuel: if `find_empty` yields nothing, succeed;
otherwise unpack `row, col = empty` and run the candidate loop (which writes
and validates `solution[col][row]`). -/
def backtrack : Nat → Grid → Option (Bool × Grid)
  | 0, _ => none
  | fuel + 1, g =>
    match find_empty g with
    | none => some (true, g)
    | some (row, col) => tryNums (backtrack fuel) row col g (List.range' 1 9)

/-- `solve()`: return the solution grid if `backtrack_solve()` is true, else
`None`; the pair also carries the object state after the call. -/
def solve (fuel : Nat) (s : Sudoku) : Option (Option Grid × Sudoku) :=
  match backtrack fuel s.solution with
  | none => none
  | some (true, g) => some (some g, ⟨s.initial_board, g⟩)
  | some (false, g) => some (none, ⟨s.initial_board, g⟩)

/-- A completely filled, constraint-respecting input grid: the cyclic pattern
`cell (r, c) = (3 (r mod 3) + r div 3 + c) mod 9 + 1`. -/
def fullInput : List (List (Option Nat)) :=
  (List.range 9).map (fun r => (List.range 9).map (fun c =>
    some ((3 * (r % 3) + r / 3 + c) % 9 + 1)))

/-- `fullInput` with cell (row 0, column 1) emptied: a valid puzzle whose only
legal completion is `fullInput` itself. -/
def holedInput : List (List (Option Nat)) :=
  fullInput.set 0 ((fullInput.getD 0 []).set 1 none)

/-- `gridExtends a b`: every filled cell of the stored grid `a` holds the same
value in the stored grid `b` (so `b` is a completion of `a` when `b` is full). -/
def gridExtends (a b : Grid) : Bool :=
  (List.range 9).all fun x => (List.range 9).all fun y =>
    match getCell a x y with
    | none => true
    | some v => getCell b x y == some v

/-- Input grid whose column 0 is `1,1,2,3,4,5,6,7,9` (cell (1,0) being the
clue `1`) and which is otherwise empty.  On it, the solver overwrites and then
erases the clue at (row 1, column 0). -/
def g3Input : List (List (Option Nat)) :=
  [[some 1, none, none, none, none, none, none, none, none],
   [some 1, none, none, none, none, none, none, none, none],
   [some 2, none, none, none, none, none, none, none, none],
   [some 3, none, none, none, none, none, none, none, none],
   [some 4, none, none, none, none, none, none, none, none],
   [some 5, none, none, none, none, none, none, none, none],
   [some 6, none, none, none, none, none, none, none, none],
   [some 7, none, none, none, none, none, none, none, none],
   [some 9, none, none, none, none, none, none, none, none]]

/-- An all-empty stored column. -/
def c9 : List (Option Nat) := [none, none, none, none, none, none, none, none, none]

/-- Stored (column-wise) form of `g3Input`. -/
def i3g : Grid :=
  [[some 1, some 1, some 2, some 3, some 4, some 5, some 6, some 7, some 9],
   c9, c9, c9, c9, c9, c9, c9, c9]

/-- The working grid after `solve` fails on `g3Input`: the clue at stored
position `[0][1]` (external row 1, column 0) has been erased. -/
def f3g : Grid :=
  [[some 1, none, some 2, some 3, some 4, some 5, some 6, some 7, some 9],
   c9, c9, c9, c9, c9, c9, c9, c9]

/-- The all-empty input grid (zero clues). -/
def emptyInput : List (List (Option Nat)) :=
  List.replicate 9 (List.replicate 9 none)

/-- The stored all-empty working grid. -/
def s0g : Grid := [c9, c9, c9, c9, c9, c9, c9, c9, c9]

/-- Working grid reached from the empty board after placing 1 at stored cell
`[0][0]`. -/
def s1g : Grid := [[some 1, none, none, none, none, none, none, none, none],
  c9, c9, c9, c9, c9, c9, c9, c9]

/-- Working grid with 1 at stored `[0][0]` and 2 at stored `[0][1]`: one of
the two states of the solver's infinite cycle on the empty board. -/
def s2g : Grid := [[some 1, some 2, none, none, none, none, none, none, none],
  c9, c9, c9, c9, c9, c9, c9, c9]

/-- Working grid with 1 at stored `[0][0]` and 3 at stored `[0][1]`: the other
state of the solver's infinite cycle on the empty board. -/
def s3g : Grid := [[some 1, some 3, none, none, none, none, none, none, none],
  c9, c9, c9, c9, c9, c9, c9, c9]

/-- An input grid with 81 pairwise distinct entries `9 r + c + 1`, used to
observe the order in which region queries read cells. -/
def b7 : List (List (Option Nat)) :=
  (List.range 9).map (fun r => (List.range 9).map (fun c => some (9 * r + c + 1)))

/-- A fully filled board all of whose cells are 5: full, hence without empty
cells, but violating every uniqueness constraint. -/
def all5 : Sudoku := Sudoku.init (List.replicate 9 (List.replicate 9 (some 5)))

/-- The 9 cells of external row `r` of the working grid, left-to-right. -/
def specRowCells (g : Grid) (r : Nat) : List (Option Nat) :=
  (List.range 9).map (fun c => cellExt g r c)

/-- The 9 cells of external column `c` of the working grid, top-to-bottom. -/
def specColCells (g : Grid) (c : Nat) : List (Option Nat) :=
  (List.range 9).map (fun r => cellExt g r c)

/-- The non-empty values of external row `r`. -/
def specRowVals (g : Grid) (r : Nat) : List Nat :=
  (List.range 9).filterMap (fun c => cellExt g r c)

/-- The non-empty values of external column `c`. -/
def specColVals (g : Grid) (c : Nat) : List Nat :=
  (List.range 9).filterMap (fun r => cellExt g r c)

/-- The 9 cells of the external block covering rows `3 bi .. 3 bi + 2` and
columns `3 bj .. 3 bj + 2`, in row-major order. -/
def specBlockCells (g : Grid) (bi bj : Nat) : List (Option Nat) :=
  ((List.range 3).map (fun i => (List.range 3).map (fun j =>
    cellExt g (3 * bi + i) (3 * bj + j)))).flatten

/-- The non-empty values of the external block `(bi, bj)`. -/
def specBlockVals (g : Grid) (bi bj : Nat) : List Nat :=
  (specBlockCells g bi bj).filterMap id

/-- The digit set `{1, ..., 9}`. -/
def nineDigits : Finset Nat := (List.range' 1 9).toFinset

/-- Spec-side description, amended per the counterexample, of the block query
on the board built from input `b`: `get_nine_square (x, y)` reads the block
covering columns `3x..3x+2` and rows `3y..3y+2` of the input, column by
column, each column top-to-bottom. -/
def blockColMajor (b : List (List (Option Nat))) (x y : Nat) : List (Option Nat) :=
  ((List.range 3).map (fun i => (List.range 3).map (fun j =>
    coerceCell ((b.getD (3 * y + j) []).getD (3 * x + i) none)))).flatten

/-! ## Concrete runs of the solver -/

/-- C1: on the valid puzzle `holedInput` (the full grid `fullInput` with the
single cell (row 0, column 1) emptied, hence a puzzle with a legal
completion), `solve` returns `None` and leaves the board untouched, because
`backtrack_solve` validates and writes the *transposed* cell (row 1, column 0)
instead of the empty one, and every digit is blocked there.  The remaining
conjuncts certify that a legal completion exists: `fullInput` passes `check`
and extends `holedInput`. -/
theorem C1_solve_returns_none_on_solvable_puzzle :
    solve 1 (Sudoku.init holedInput) = some (none, Sudoku.init holedInput)
      ∧ check (Sudoku.init fullInput).solution = true
      ∧ gridExtends (Sudoku.init holedInput).solution
          (Sudoku.init fullInput).solution = true := by
  exact ⟨by decide, by decide, by decide⟩

/-- C3: on `g3Input`, whose cell (row 1, column 0) holds the clue 1 (stored at
`initial_board[0][1]`), `solve` returns `None` with a final working grid whose
cell (row 1, column 0) is empty: the clue was overwritten with 8 during the
search and the backtracking undo then erased it, so the given grid and the
working grid disagree at a clue cell. -/
theorem C3_clue_is_erased_during_solving :
    solve 2 (Sudoku.init g3Input) = some (none, ⟨i3g, f3g⟩)
      ∧ getCell i3g 0 1 = some 1
      ∧ getCell f3g 0 1 = none
      ∧ (Sudoku.init g3Input).initial_board = i3g := by
  exact ⟨by decide, by decide, by decide, by decide⟩

/-- C4: on `g3Input` the root-level search fails (`solve` returns `None`), yet
the working grid it leaves behind (`f3g`) differs from the working grid
immediately after construction (`i3g`): the placement made on the clue cell
(row 1, column 0) was "undone" to empty rather than restored to the clue. -/
theorem C4_failed_solve_does_not_restore_grid :
    solve 2 (Sudoku.init g3Input) = some (none, ⟨i3g, f3g⟩)
      ∧ (Sudoku.init g3Input).solution = i3g
      ∧ f3g ≠ i3g := by
  exact ⟨by decide, by decide, by decide⟩

/-- C9: construction performs no validation.  A ragged grid (`[[1,2],[3]]`) is
silently truncated by the `zip` transposition to the single stored column
`[1,3]`; a cell holding 0 (outside empty/1–9) is silently coerced to empty by
the truthiness test `int(e) if e else None`; and an out-of-range digit 15 is
stored verbatim.  Construction never fails. -/
theorem C9_construction_accepts_malformed_input :
    (Sudoku.init [[some 1, some 2], [some 3]]).solution = [[some 1, some 3]]
      ∧ getCell (Sudoku.init ((some 0 :: List.replicate 8 none)
          :: List.replicate 8 (List.replicate 9 none))).solution 0 0 = none
      ∧ (Sudoku.init [[some 15]]).solution = [[some 15]] := by
  exact ⟨by decide, by decide, by decide⟩

/-- C10: whenever the working grid has no empty cell, `backtrack_solve`
succeeds immediately and `solve` returns the working grid unchanged — whether
or not the grid satisfies `check`. -/
theorem C10_solve_succeeds_on_any_full_board (s : Sudoku)
    (h : find_empty s.solution = none) :
    solve 1 s = some (some s.solution, s) := by
  have hb : backtrack 1 s.solution = some (true, s.solution) := by
    unfold backtrack
    rw [h]
  cases s with
  | mk ib sol =>
    unfold solve
    rw [hb]

/-- C10 witness: the all-5s board is fully filled, so `solve` reports success
and returns it unchanged, even though `check` is false on it. -/
theorem C10_witness :
    find_empty all5.solution = none
      ∧ solve 1 all5 = some (some all5.solution, all5)
      ∧ check all5.solution = false := by
  exact ⟨by decide, C10_solve_succeeds_on_any_full_board all5 (by decide), by decide⟩

/-- C7 counterexample: on the board built from `b7` (81 distinct values,
value `9 r + c + 1` at row `r`, column `c`), `get_nine_square 0 1` does not
return the block covering rows 0..2 and columns 3..5 in row-major order
(which would be `[4, 5, 6, 13, 14, 15, 22, 23, 24]`); it returns
`[28, 37, 46, 29, 38, 47, 30, 39, 48]` — the block covering columns 0..2 and
rows 3..5, read column by column. -/
theorem C7_counterexample_block_query :
    (get_nine_square (Sudoku.init b7).solution 0 1).flatten
      ≠ [some 4, some 5, some 6, some 13, some 14, some 15,
         some 22, some 23, some 24]
      ∧ (get_nine_square (Sudoku.init b7).solution 0 1).flatten
        = [some 28, some 37, some 46, some 29, some 38, some 47,
           some 30, some 39, some 48] := by
  exact ⟨by decide, by decide⟩

/-! ## Divergence of the search on the empty board -/

/-- One unfolding of the search from cycle state `s2g`: candidates 1 and 2 are
rejected, candidate 3 is placed (reaching `s3g`) and the search recurses. -/
theorem backtrack_succ_s2g (n : Nat) (h : backtrack n s3g = none) :
    backtrack (n + 1) s2g = none := by
  have e : backtrack (n + 1) s2g =
      (match backtrack n s3g with
       | none => none
       | some (true, g2) => some (true, g2)
       | some (false, g2) =>
         tryNums (backtrack n) 1 0 (setCell g2 0 1 none) [4, 5, 6, 7, 8, 9]) := rfl
  rw [e, h]

/-- One unfolding of the search from cycle state `s3g`: candidate 1 is
rejected, candidate 2 is placed (reaching `s2g` again) and the search
recurses. -/
theorem backtrack_succ_s3g (n : Nat) (h : backtrack n s2g = none) :
    backtrack (n + 1) s3g = none := by
  have e : backtrack (n + 1) s3g =
      (match backtrack n s2g with
       | none => none
       | some (true, g2) => some (true, g2)
       | some (false, g2) =>
         tryNums (backtrack n) 1 0 (setCell g2 0 1 none) [3, 4, 5, 6, 7, 8, 9]) := rfl
  rw [e, h]

/-- The search never returns from either cycle state, whatever the fuel. -/
theorem backtrack_cycle (n : Nat) :
    backtrack n s2g = none ∧ backtrack n s3g = none := by
  induction n with
  | zero => exact ⟨rfl, rfl⟩
  | succ m ih => exact ⟨backtrack_succ_s2g m ih.2, backtrack_succ_s3g m ih.1⟩

/-- From `s1g` the first step places 2 at stored cell `[0][1]`, entering the
cycle. -/
theorem backtrack_s1g (n : Nat) : backtrack n s1g = none := by
  cases n with
  | zero => rfl
  | succ m =>
    have e : backtrack (m + 1) s1g =
        (match backtrack m s2g with
         | none => none
         | some (true, g2) => some (true, g2)
         | some (false, g2) =>
           tryNums (backtrack m) 1 0 (setCell g2 0 1 none) [3, 4, 5, 6, 7, 8, 9]) := rfl
    rw [e, (backtrack_cycle m).1]

/-- From the empty board the first step places 1 at stored cell `[0][0]`,
reaching `s1g`. -/
theorem backtrack_s0g (n : Nat) : backtrack n s0g = none := by
  cases n with
  | zero => rfl
  | succ m =>
    have e : backtrack (m + 1) s0g =
        (match backtrack m s1g with
         | none => none
         | some (true, g2) => some (true, g2)
         | some (false, g2) =>
           tryNums (backtrack m) 0 0 (setCell g2 0 0 none) [2, 3, 4, 5, 6, 7, 8, 9]) := rfl
    rw [e, backtrack_s1g m]

/-- C2: on the all-empty input grid (a valid 9×9 grid), the backtracking
search never terminates: whatever the fuel, `backtrack_solve` and `solve` are
still running.  The search keeps rediscovering the empty stored cell `[1][0]`
while placing digits into the transposed stored cell `[0][1]`, alternating 2
and 3 there forever (in Python: unbounded recursion, `RecursionError`). -/
theorem C2_search_diverges_on_empty_grid (fuel : Nat) :
    backtrack fuel (Sudoku.init emptyInput).solution = none
      ∧ solve fuel (Sudoku.init emptyInput) = none := by
  have hs : (Sudoku.init emptyInput).solution = s0g := by decide
  have hb : backtrack fuel (Sudoku.init emptyInput).solution = none := by
    rw [hs]
    exact backtrack_s0g fuel
  refine ⟨hb, ?_⟩
  unfold solve
  rw [hb]

/-! ## Characterization of `find_empty` -/

/-- The inner scan returns `some (r, c)` exactly when `c` is the scanned
column, cell `[r][c]` is empty, and every `j` before `r` in the scan list has
`[j][c]` non-empty. -/
theorem findInCol_some_iff (g : Grid) (i r c : Nat) :
    ∀ js : List Nat, findInCol g i js = some (r, c) ↔
      c = i ∧ getCell g r i = none ∧
        ∃ l1 l2, js = l1 ++ r :: l2 ∧ ∀ j ∈ l1, getCell g j i ≠ none := by
  intro js
  induction js with
  | nil =>
    simp only [findInCol]
    constructor
    · intro h; exact Option.noConfusion h
    · rintro ⟨-, -, l1, l2, hjs, -⟩
      cases l1 <;> simp at hjs
  | cons j js ih =>
    simp only [findInCol]
    by_cases h : getCell g j i = none
    · rw [if_pos h]
      constructor
      · intro he
        have hji : j = r ∧ i = c := by simpa using he
        obtain ⟨hj, hi⟩ := hji
        subst hj; subst hi
        exact ⟨rfl, h, [], js, rfl, by simp⟩
      · rintro ⟨hc, hr, l1, l2, hjs, hl1⟩
        subst hc
        cases l1 with
        | nil =>
          simp only [List.nil_append, List.cons.injEq] at hjs
          obtain ⟨hj, -⟩ := hjs
          subst hj
          rfl
        | cons a l1' =>
          simp only [List.cons_append, List.cons.injEq] at hjs
          obtain ⟨hj, -⟩ := hjs
          subst hj
          exact absurd h (hl1 j (by simp))
    · rw [if_neg h]
      rw [ih]
      constructor
      · rintro ⟨hc, hr, l1, l2, hjs, hl1⟩
        refine ⟨hc, hr, j :: l1, l2, by rw [hjs, List.cons_append], ?_⟩
        intro x hx
        rcases List.mem_cons.mp hx with rfl | hx
        · exact h
        · exact hl1 x hx
      · rintro ⟨hc, hr, l1, l2, hjs, hl1⟩
        subst hc
        cases l1 with
        | nil =>
          simp only [List.nil_append, List.cons.injEq] at hjs
          obtain ⟨hj, -⟩ := hjs
          subst hj
          exact absurd hr h
        | cons a l1' =>
          simp only [List.cons_append, List.cons.injEq] at hjs
          obtain ⟨hj, hjs2⟩ := hjs
          subst hj
          exact ⟨rfl, hr, l1', l2, hjs2, fun x hx => hl1 x (by simp [hx])⟩

/-- The inner scan returns `none` exactly when every scanned cell of the
column is non-empty. -/
theorem findInCol_none_iff (g : Grid) (i : Nat) :
    ∀ js : List Nat, findInCol g i js = none ↔
      ∀ j ∈ js, getCell g j i ≠ none := by
  intro js
  induction js with
  | nil => simp [findInCol]
  | cons j js ih =>
    simp only [findInCol]
    by_cases h : getCell g j i = none
    · rw [if_pos h]
      constructor
      · intro he; exact Option.noConfusion he
      · intro hall; exact absurd h (hall j (by simp))
    · rw [if_neg h, ih]
      constructor
      · intro hall x hx
        rcases List.mem_cons.mp hx with rfl | hx
        · exact h
        · exact hall x hx
      · intro hall x hx; exact hall x (by simp [hx])

/-- The outer scan returns `some (r, c)` exactly when column `c`'s scan
returns it and every column before `c` in the scan list scans to nothing. -/
theorem findEmptyAux_some_iff (g : Grid) (r c : Nat) :
    ∀ is' : List Nat, findEmptyAux g is' = some (r, c) ↔
      findInCol g c (List.range 9) = some (r, c) ∧
        ∃ l1 l2, is' = l1 ++ c :: l2 ∧
          ∀ i ∈ l1, findInCol g i (List.range 9) = none := by
  intro is'
  induction is' with
  | nil =>
    simp only [findEmptyAux]
    constructor
    · intro h; exact Option.noConfusion h
    · rintro ⟨-, l1, l2, hjs, -⟩
      cases l1 <;> simp at hjs
  | cons i is' ih =>
    simp only [findEmptyAux]
    cases hf : findInCol g i (List.range 9) with
    | some p =>
      constructor
      · intro he
        have hp : p = (r, c) := by simpa using he
        subst hp
        have hc : c = i := ((findInCol_some_iff g i r c (List.range 9)).mp hf).1
        subst hc
        exact ⟨hf, [], is', rfl, by simp⟩
      · rintro ⟨hcol, l1, l2, hjs, hl1⟩
        cases l1 with
        | nil =>
          simp only [List.nil_append, List.cons.injEq] at hjs
          obtain ⟨hi, -⟩ := hjs
          subst hi
          rw [hf] at hcol
          simpa using hcol
        | cons a l1' =>
          simp only [List.cons_append, List.cons.injEq] at hjs
          obtain ⟨hi, -⟩ := hjs
          subst hi
          rw [hl1 i (by simp)] at hf
          exact Option.noConfusion hf
    | none =>
      rw [ih]
      constructor
      · rintro ⟨hcol, l1, l2, hjs, hl1⟩
        refine ⟨hcol, i :: l1, l2, by rw [hjs, List.cons_append], ?_⟩
        intro x hx
        rcases List.mem_cons.mp hx with rfl | hx
        · exact hf
        · exact hl1 x hx
      · rintro ⟨hcol, l1, l2, hjs, hl1⟩
        cases l1 with
        | nil =>
          simp only [List.nil_append, List.cons.injEq] at hjs
          obtain ⟨hi, -⟩ := hjs
          subst hi
          rw [hf] at hcol
          exact Option.noConfusion hcol
        | cons a l1' =>
          simp only [List.cons_append, List.cons.injEq] at hjs
          obtain ⟨hi, hjs2⟩ := hjs
          subst hi
          exact ⟨hcol, l1', l2, hjs2, fun x hx => hl1 x (by simp [hx])⟩

/-- The outer scan returns `none` exactly when every scanned column scans to
nothing. -/
theorem findEmptyAux_none_iff (g : Grid) :
    ∀ is' : List Nat, findEmptyAux g is' = none ↔
      ∀ i ∈ is', findInCol g i (List.range 9) = none := by
  intro is'
  induction is' with
  | nil => simp [findEmptyAux]
  | cons i is' ih =>
    simp only [findEmptyAux]
    cases hf : findInCol g i (List.range 9) with
    | some p =>
      constructor
      · intro he; exact Option.noConfusion he
      · intro hall
        rw [hall i (by simp)] at hf
        exact Option.noConfusion hf
    | none =>
      rw [ih]
      constructor
      · intro hall x hx
        rcases List.mem_cons.mp hx with rfl | hx
        · exact hf
        · exact hall x hx
      · intro hall x hx; exact hall x (by simp [hx])

/-- The element sitting right after a prefix of an append. -/
theorem getD_append_self (l1 l2 : List Nat) (a d : Nat) :
    (l1 ++ a :: l2).getD l1.length d = a := by
  induction l1 with
  | nil => rfl
  | cons x xs ih => simpa using ih

/-- `List.range n` holds `k` at position `k`. -/
theorem getD_range (n k d : Nat) (h : k < n) : (List.range n).getD k d = k := by
  rw [List.getD_eq_getElem?_getD, List.getElem?_range h]
  rfl

/-- Decomposing `List.range n` around one element determines the prefix. -/
theorem range_split (n a : Nat) (l1 l2 : List Nat)
    (h : List.range n = l1 ++ a :: l2) : a < n ∧ l1 = List.range a := by
  have ha : a < n := by
    have hm : a ∈ List.range n := by rw [h]; simp
    simpa using hm
  have hlen : (l1 ++ a :: l2).length = n := by rw [← h]; simp
  have hl1n : l1.length < n := by simp at hlen; omega
  have hc := congrArg (fun l => l.getD l1.length 0) h
  simp only at hc
  rw [getD_range n l1.length 0 hl1n, getD_append_self] at hc
  refine ⟨ha, ?_⟩
  have ht : l1 = (List.range n).take l1.length := by
    rw [h, List.take_left]
  rw [ht, List.take_range, hc, Nat.min_eq_left (Nat.le_of_lt ha)]

/-- C8: `find_empty` scans the stored working grid in column-major order (for
each column index `i` in 0..8, for each row index `j` in 0..8 it inspects
`solution[j][i]`) and returns the stored coordinates `(row, col)` of the first
empty cell, or `none` when the board is full: any returned `(r, c)` is an
empty in-range cell and every cell strictly earlier in the column-major order
is non-empty, and `none` is returned exactly when no cell is empty. -/
theorem C8_find_empty_first_in_column_major_order (g : Grid) :
    (∀ r c, find_empty g = some (r, c) →
        r < 9 ∧ c < 9 ∧ getCell g r c = none ∧
          ∀ r' c', r' < 9 → c' < 9 → (c' < c ∨ (c' = c ∧ r' < r)) →
            getCell g r' c' ≠ none)
      ∧ (find_empty g = none ↔ ∀ r, r < 9 → ∀ c, c < 9 → getCell g r c ≠ none) := by
  constructor
  · intro r c h
    obtain ⟨hcol, l1, l2, hdec, hl1⟩ :=
      (findEmptyAux_some_iff g r c (List.range 9)).mp h
    obtain ⟨hc9, hl1r⟩ := range_split 9 c l1 l2 hdec
    obtain ⟨-, hrc, m1, m2, hmdec, hm1⟩ :=
      (findInCol_some_iff g c r c (List.range 9)).mp hcol
    obtain ⟨hr9, hm1r⟩ := range_split 9 r m1 m2 hmdec
    refine ⟨hr9, hc9, hrc, ?_⟩
    intro r' c' hr' hc' hord
    rcases hord with hlt | ⟨rfl, hlt⟩
    · have hmem : c' ∈ l1 := by rw [hl1r]; simpa using hlt
      have hnone := hl1 c' hmem
      exact (findInCol_none_iff g c' (List.range 9)).mp hnone r' (by simpa using hr')
    · have hmem : r' ∈ m1 := by rw [hm1r]; simpa using hlt
      exact hm1 r' hmem
  · rw [find_empty, findEmptyAux_none_iff]
    constructor
    · intro hall r hr c hc
      exact (findInCol_none_iff g c (List.range 9)).mp
        (hall c (by simpa using hc)) r (by simpa using hr)
    · intro hall i hi
      rw [findInCol_none_iff]
      intro j hj
      exact hall j (by simpa using hj) i (by simpa using hi)

/-- C8 witness: on the stored grid `i3g` the first empty cell in column-major
order is stored cell `(1, 0)` (column 0, row 1). -/
theorem C8_witness : 1 < 9 ∧ 0 < 9 ∧ getCell i3g 1 0 = none :=
  (fun h => ⟨h.1, h.2.1, h.2.2.1⟩)
    ((C8_find_empty_first_in_column_major_order i3g).1 1 0 (by decide))

/-! ## Region queries in external coordinates -/

/-- `List.contains` agrees with membership on cell lists. -/
theorem contains_iff_mem (l : List (Option Nat)) (a : Option Nat) :
    l.contains a = true ↔ a ∈ l := by
  simp only [List.contains_iff_exists_mem_beq]
  constructor
  · rintro ⟨x, hx, hb⟩
    rw [show a = x from by simpa using hb]
    exact hx
  · intro hx; exact ⟨a, hx, by simp⟩

/-- A 3-element slice of a list, written out with `getD`. -/
theorem take3_drop {α : Type} (l : List α) (k : Nat) (d : α) (h : k + 3 ≤ l.length) :
    (l.drop k).take 3 = [l.getD k d, l.getD (k + 1) d, l.getD (k + 2) d] := by
  apply List.ext_getElem
  · simp; omega
  · intro i h1 h2
    have hi : i < 3 := by simp at h2; omega
    simp only [List.getElem_take, List.getElem_drop]
    interval_cases i <;>
      simp only [List.getElem_cons_zero, List.getElem_cons_succ] <;>
      rw [List.getD_eq_getElem l d (by omega)] <;> simp

/-- A length-`n` list mapped by `f` is the range-indexed list of `f` at its
entries. -/
theorem map_eq_range_map {α β : Type} (f : α → β) (d : α) (l : List α) (n : Nat)
    (h : l.length = n) :
    l.map f = (List.range n).map (fun k => f (l.getD k d)) := by
  apply List.ext_getElem
  · simp [h]
  · intro i h1 h2
    simp only [List.getElem_map, List.getElem_range]
    rw [List.getD_eq_getElem l d (by simp at h1; omega)]

/-- On a 9-column grid, `get_row` reads the 9 cells of external row `r`
left-to-right. -/
theorem get_row_eq_spec (g : Grid) (hg : g.length = 9) (r : Nat) :
    get_row g r = specRowCells g r := by
  unfold get_row specRowCells cellExt getCell
  exact map_eq_range_map (fun column => column.getD r none) [] g 9 hg

/-- On a well-formed grid, `get_column` reads the 9 cells of external column
`c` top-to-bottom. -/
theorem get_column_eq_spec (g : Grid) (hw : wf g) (c : Nat) (hc : c < 9) :
    get_column g c = specColCells g c := by
  obtain ⟨hg, hcols⟩ := hw
  have hcl : c < g.length := by rw [hg]; exact hc
  have hlen : (g.getD c []).length = 9 := by
    rw [List.getD_eq_getElem g [] hcl]
    exact hcols _ (List.getElem_mem hcl)
  have h2 := map_eq_range_map id none (g.getD c []) 9 hlen
  simp only [List.map_id, id_eq] at h2
  unfold get_column specColCells cellExt getCell
  exact h2

/-- The flattened block query written out cell by cell: `get_nine_square x y`
reads external columns `3x..3x+2`, each sliced at external rows `3y..3y+2`. -/
theorem flatten_block_eq (g : Grid) (hw : wf g) (x y : Nat) (hx : x < 3) (hy : y < 3) :
    (get_nine_square g x y).flatten =
      [cellExt g (3 * y) (3 * x), cellExt g (3 * y + 1) (3 * x),
       cellExt g (3 * y + 2) (3 * x),
       cellExt g (3 * y) (3 * x + 1), cellExt g (3 * y + 1) (3 * x + 1),
       cellExt g (3 * y + 2) (3 * x + 1),
       cellExt g (3 * y) (3 * x + 2), cellExt g (3 * y + 1) (3 * x + 2),
       cellExt g (3 * y + 2) (3 * x + 2)] := by
  obtain ⟨hg, hcols⟩ := hw
  have hlen : ∀ a, a < 9 → (g.getD a []).length = 9 := by
    intro a ha
    have hal : a < g.length := by rw [hg]; exact ha
    rw [List.getD_eq_getElem g [] hal]
    exact hcols _ (List.getElem_mem hal)
  unfold get_nine_square
  rw [take3_drop g (3 * x) [] (by omega)]
  simp only [List.map_cons, List.map_nil]
  rw [take3_drop (g.getD (3 * x) []) (3 * y) none (by rw [hlen _ (by omega)]; omega)]
  rw [take3_drop (g.getD (3 * x + 1) []) (3 * y) none (by rw [hlen _ (by omega)]; omega)]
  rw [take3_drop (g.getD (3 * x + 2) []) (3 * y) none (by rw [hlen _ (by omega)]; omega)]
  simp [cellExt, getCell]

/-! ## C5: characterization of is_valid -/

/-- C5: for a digit `d` in 1..9 and external coordinates `(r, c)` in range,
`can_place(d, r, c)` — the call `is_valid(d, (c, r))`, since the second
component of `pos` selects the row — returns false exactly when `d` already
appears in external row `r`, in external column `c`, or in the 3×3 block
containing `(r, c)` of the working grid. -/
theorem C5_is_valid_iff_no_conflict (g : Grid) (hw : wf g) (d r c : Nat)
    (hd : 1 ≤ d ∧ d ≤ 9) (hr : r < 9) (hc : c < 9) :
    is_valid g d (c, r) = false ↔
      (∃ c', c' < 9 ∧ cellExt g r c' = some d)
        ∨ (∃ r', r' < 9 ∧ cellExt g r' c = some d)
        ∨ (∃ r' c', r' < 9 ∧ c' < 9 ∧ r' / 3 = r / 3 ∧ c' / 3 = c / 3 ∧
            cellExt g r' c' = some d) := by
  have hg := hw.1
  have hsplit : is_valid g d (c, r) = false ↔
      ((get_row g r).contains (some d) = true
        ∨ (get_column g c).contains (some d) = true
        ∨ ((get_nine_square g (c / 3) (r / 3)).flatten).contains (some d) = true) := by
    simp only [is_valid]
    cases h1 : (get_row g r).contains (some d) <;>
      cases h2 : (get_column g c).contains (some d) <;>
        cases h3 : ((get_nine_square g (c / 3) (r / 3)).flatten).contains (some d) <;>
          simp
  rw [hsplit]
  have hrow : (get_row g r).contains (some d) = true ↔
      ∃ c', c' < 9 ∧ cellExt g r c' = some d := by
    rw [contains_iff_mem, get_row_eq_spec g hg r]
    simp [specRowCells]
  have hcol : (get_column g c).contains (some d) = true ↔
      ∃ r', r' < 9 ∧ cellExt g r' c = some d := by
    rw [contains_iff_mem, get_column_eq_spec g hw c hc]
    simp [specColCells]
  have hblock : ((get_nine_square g (c / 3) (r / 3)).flatten).contains (some d) = true ↔
      ∃ r' c', r' < 9 ∧ c' < 9 ∧ r' / 3 = r / 3 ∧ c' / 3 = c / 3 ∧
        cellExt g r' c' = some d := by
    rw [contains_iff_mem,
      flatten_block_eq g hw (c / 3) (r / 3) (by omega) (by omega)]
    constructor
    · intro hm
      simp only [List.mem_cons, List.not_mem_nil, or_false] at hm
      rcases hm with h | h | h | h | h | h | h | h | h
      · exact ⟨3 * (r / 3), 3 * (c / 3), by omega, by omega, by omega, by omega, h.symm⟩
      · exact ⟨3 * (r / 3) + 1, 3 * (c / 3), by omega, by omega, by omega, by omega, h.symm⟩
      · exact ⟨3 * (r / 3) + 2, 3 * (c / 3), by omega, by omega, by omega, by omega, h.symm⟩
      · exact ⟨3 * (r / 3), 3 * (c / 3) + 1, by omega, by omega, by omega, by omega, h.symm⟩
      · exact ⟨3 * (r / 3) + 1, 3 * (c / 3) + 1, by omega, by omega, by omega, by omega, h.symm⟩
      · exact ⟨3 * (r / 3) + 2, 3 * (c / 3) + 1, by omega, by omega, by omega, by omega, h.symm⟩
      · exact ⟨3 * (r / 3), 3 * (c / 3) + 2, by omega, by omega, by omega, by omega, h.symm⟩
      · exact ⟨3 * (r / 3) + 1, 3 * (c / 3) + 2, by omega, by omega, by omega, by omega, h.symm⟩
      · exact ⟨3 * (r / 3) + 2, 3 * (c / 3) + 2, by omega, by omega, by omega, by omega, h.symm⟩
    · rintro ⟨r', c', hr', hc', hrd, hcd, hcell⟩
      obtain ⟨jr, hjr, rfl⟩ : ∃ j, j < 3 ∧ r' = 3 * (r / 3) + j :=
        ⟨r' % 3, by omega, by omega⟩
      obtain ⟨ic, hic, rfl⟩ : ∃ i, i < 3 ∧ c' = 3 * (c / 3) + i :=
        ⟨c' % 3, by omega, by omega⟩
      interval_cases jr <;> interval_cases ic <;>
        simp only [List.mem_cons] <;> rw [← hcell] <;> simp
  rw [hrow, hcol, hblock]

/-- C5 witness: on the stored grid `i3g` (external row 1 holds a 1 in column
0), digit 1 cannot be placed at external cell (1, 1), and indeed a conflict
exists in its row. -/
theorem C5_witness :
    (1 ≤ 1 ∧ 1 ≤ 9) ∧
      (is_valid i3g 1 (1, 1) = false ↔
        (∃ c', c' < 9 ∧ cellExt i3g 1 c' = some 1)
          ∨ (∃ r', r' < 9 ∧ cellExt i3g r' 1 = some 1)
          ∨ (∃ r' c', r' < 9 ∧ c' < 9 ∧ r' / 3 = 1 / 3 ∧ c' / 3 = 1 / 3 ∧
              cellExt i3g r' c' = some 1)) :=
  ⟨by decide, C5_is_valid_iff_no_conflict i3g (by decide) 1 1 1 (by decide)
    (by decide) (by decide)⟩

/-! ## C6: characterization of check -/

/-- `List.range 9` split at an element `c < 9`. -/
theorem range_nine_decomp (c : Nat) (hc : c < 9) :
    List.range 9 = List.range c ++ c :: List.range' (c + 1) (8 - c) := by
  have h4 : c :: List.range' (c + 1) (8 - c) = List.range' c (8 - c + 1) := by
    rw [List.range'_succ c (8 - c) 1]
  rw [h4, List.range_eq_range' 9, List.range_eq_range' c]
  have h5 := List.range'_append 0 c (8 - c + 1) 1
  simp only [Nat.zero_add, Nat.one_mul] at h5
  rw [h5]
  congr 1
  omega

/-- If `f` drops one index of `range 9`, the filterMap has at most 8
entries. -/
theorem filterMap_range_nine_short (f : Nat → Option Nat) (c : Nat) (hc : c < 9)
    (hfc : f c = none) : ((List.range 9).filterMap f).length ≤ 8 := by
  have h3 : List.filterMap f (c :: List.range' (c + 1) (8 - c))
      = List.filterMap f (List.range' (c + 1) (8 - c)) := by
    simp [hfc]
  rw [range_nine_decomp c hc, List.filterMap_append, h3, List.length_append]
  have h1 := List.length_filterMap_le f (List.range c)
  have h2 := List.length_filterMap_le f (List.range' (c + 1) (8 - c))
  simp only [List.length_range] at h1
  simp only [List.length_range'] at h2
  omega

/-- For a 9-cell region list, Python's set comparison against
`set(range(1, 10))` holds exactly when the set of its non-empty values is
`{1, ..., 9}`. -/
theorem toFinset_eq_nineSet_iff (l : List (Option Nat)) (hl : l.length = 9) :
    l.toFinset = nineSet ↔ (l.filterMap id).toFinset = nineDigits := by
  have hmem : ∀ b : Nat, b ∈ l.filterMap id ↔ some b ∈ l := by
    intro b; simp [List.mem_filterMap]
  have hnine : ∀ b : Nat, some b ∈ nineSet ↔ b ∈ nineDigits := by
    intro b; simp [nineSet, nineDigits]
  constructor
  · intro h
    ext b
    rw [List.mem_toFinset, hmem b, ← List.mem_toFinset, h]
    exact hnine b
  · intro h
    have hnone : none ∉ l := by
      intro hn
      obtain ⟨l1, l2, hsplit⟩ := List.append_of_mem hn
      have h9 : 9 ≤ (l.filterMap id).length := by
        have hcard : (l.filterMap id).toFinset.card = 9 := by rw [h]; decide
        have hle := List.toFinset_card_le (l.filterMap id)
        omega
      have hshort : (l.filterMap id).length ≤ 8 := by
        rw [hsplit]
        rw [List.filterMap_append]
        have h3 : List.filterMap id (none :: l2) = List.filterMap id l2 := by simp
        rw [h3, List.length_append]
        have h1 := List.length_filterMap_le id l1
        have h2 := List.length_filterMap_le id l2
        have hlen : l1.length + (1 + l2.length) = 9 := by
          rw [hsplit] at hl
          simp at hl
          omega
        omega
      omega
    ext a
    cases a with
    | none =>
      simp only [List.mem_toFinset]
      constructor
      · intro hn; exact absurd hn hnone
      · intro hn; exact absurd hn (by simp [nineSet])
    | some b =>
      rw [List.mem_toFinset, hnine b, ← h, List.mem_toFinset]
      exact (hmem b).symm

/-- `get_row` lists have 9 entries on a 9-column grid. -/
theorem length_get_row (g : Grid) (hg : g.length = 9) (r : Nat) :
    (get_row g r).length = 9 := by
  simp [get_row, hg]

/-- `get_column` lists have 9 entries on a well-formed grid. -/
theorem length_get_column (g : Grid) (hw : wf g) (c : Nat) (hc : c < 9) :
    (get_column g c).length = 9 := by
  rw [get_column_eq_spec g hw c hc]
  simp [specColCells]

/-- Flattened block queries have 9 entries on a well-formed grid. -/
theorem length_flatten_block (g : Grid) (hw : wf g) (x y : Nat)
    (hx : x < 3) (hy : y < 3) :
    ((get_nine_square g x y).flatten).length = 9 := by
  rw [flatten_block_eq g hw x y hx hy]
  rfl

/-- The non-empty values of a `get_row` list are the external row values. -/
theorem filterMap_get_row (g : Grid) (hg : g.length = 9) (r : Nat) :
    (get_row g r).filterMap id = specRowVals g r := by
  rw [get_row_eq_spec g hg r]
  unfold specRowCells specRowVals
  rw [List.filterMap_map]
  rfl

/-- The non-empty values of a `get_column` list are the external column
values. -/
theorem filterMap_get_column (g : Grid) (hw : wf g) (c : Nat) (hc : c < 9) :
    (get_column g c).filterMap id = specColVals g c := by
  rw [get_column_eq_spec g hw c hc]
  unfold specColCells specColVals
  rw [List.filterMap_map]
  rfl

/-- The non-empty values of the flattened code block `(x, y)` form the same
set as the external block with row band `y` and column band `x`. -/
theorem block_vals_toFinset (g : Grid) (hw : wf g) (x y : Nat)
    (hx : x < 3) (hy : y < 3) :
    ((get_nine_square g x y).flatten.filterMap id).toFinset
      = (specBlockVals g y x).toFinset := by
  rw [flatten_block_eq g hw x y hx hy]
  have hspec : specBlockVals g y x = List.filterMap id
      [cellExt g (3 * y) (3 * x), cellExt g (3 * y) (3 * x + 1),
       cellExt g (3 * y) (3 * x + 2),
       cellExt g (3 * y + 1) (3 * x), cellExt g (3 * y + 1) (3 * x + 1),
       cellExt g (3 * y + 1) (3 * x + 2),
       cellExt g (3 * y + 2) (3 * x), cellExt g (3 * y + 2) (3 * x + 1),
       cellExt g (3 * y + 2) (3 * x + 2)] := by
    unfold specBlockVals specBlockCells
    simp [List.range_succ]
  rw [hspec]
  ext a
  simp only [List.mem_toFinset, List.mem_filterMap, id_eq, List.mem_cons,
    List.not_mem_nil, or_false, exists_eq_or_imp, exists_eq_left]
  tauto

/-- `check_row` holds exactly when the external row's non-empty values are
`{1, ..., 9}`. -/
theorem check_row_iff (g : Grid) (hw : wf g) (r : Nat) :
    check_row g r = true ↔ (specRowVals g r).toFinset = nineDigits := by
  unfold check_row
  rw [decide_eq_true_eq]
  rw [toFinset_eq_nineSet_iff _ (length_get_row g hw.1 r),
    filterMap_get_row g hw.1 r]

/-- `check_column` holds exactly when the external column's non-empty values
are `{1, ..., 9}`. -/
theorem check_col_iff (g : Grid) (hw : wf g) (c : Nat) (hc : c < 9) :
    check_column g c = true ↔ (specColVals g c).toFinset = nineDigits := by
  unfold check_column
  rw [decide_eq_true_eq]
  rw [toFinset_eq_nineSet_iff _ (length_get_column g hw c hc),
    filterMap_get_column g hw c hc]

/-- `check_nine_square (x, y)` holds exactly when the external block with row
band `y` and column band `x` has non-empty value set `{1, ..., 9}`. -/
theorem check_square_iff (g : Grid) (hw : wf g) (x y : Nat)
    (hx : x < 3) (hy : y < 3) :
    check_nine_square g x y = true ↔
      (specBlockVals g y x).toFinset = nineDigits := by
  unfold check_nine_square
  rw [decide_eq_true_eq]
  rw [toFinset_eq_nineSet_iff _ (length_flatten_block g hw x y hx hy)]
  rw [block_vals_toFinset g hw x y hx hy]

/-- C6: `check()` is true exactly when every external row, column and block of
the working grid has its set of non-empty values equal to `{1, ..., 9}`.
Consequently `check()` can be true only on a fully filled board, and any
region with fewer than 9 non-empty entries makes its region check false (and
hence `check()` false), duplicates or not. -/
theorem C6_check_iff_all_regions_complete (g : Grid) (hw : wf g) :
    (check g = true ↔
        ((∀ r, r < 9 → (specRowVals g r).toFinset = nineDigits)
          ∧ (∀ c, c < 9 → (specColVals g c).toFinset = nineDigits)
          ∧ (∀ bi, bi < 3 → ∀ bj, bj < 3 →
              (specBlockVals g bi bj).toFinset = nineDigits)))
      ∧ (check g = true → ∀ r, r < 9 → ∀ c, c < 9 → cellExt g r c ≠ none)
      ∧ (∀ r, r < 9 → (specRowVals g r).length < 9 → check_row g r = false)
      ∧ (∀ c, c < 9 → (specColVals g c).length < 9 → check_column g c = false)
      ∧ (∀ bi, bi < 3 → ∀ bj, bj < 3 → (specBlockVals g bi bj).length < 9 →
          check_nine_square g bj bi = false) := by
  have hmain : check g = true ↔
      ((∀ r, r < 9 → (specRowVals g r).toFinset = nineDigits)
        ∧ (∀ c, c < 9 → (specColVals g c).toFinset = nineDigits)
        ∧ (∀ bi, bi < 3 → ∀ bj, bj < 3 →
            (specBlockVals g bi bj).toFinset = nineDigits)) := by
    simp only [check, Bool.and_eq_true, List.all_eq_true, List.mem_range]
    constructor
    · rintro ⟨hrc, hsq⟩
      refine ⟨?_, ?_, ?_⟩
      · intro r hrn
        exact (check_row_iff g hw r).mp (hrc r hrn).1
      · intro c hcn
        exact (check_col_iff g hw c hcn).mp (hrc c hcn).2
      · intro bi hbi bj hbj
        exact (check_square_iff g hw bj bi hbj hbi).mp (hsq bj hbj bi hbi)
    · rintro ⟨hrow, hcol, hblk⟩
      refine ⟨?_, ?_⟩
      · intro i hi
        exact ⟨(check_row_iff g hw i).mpr (hrow i hi),
          (check_col_iff g hw i hi).mpr (hcol i hi)⟩
      · intro x hx y hy
        exact (check_square_iff g hw x y hx hy).mpr (hblk y hy x hx)
  refine ⟨hmain, ?_, ?_, ?_, ?_⟩
  · intro hchk r hr c hc hnone
    have hset := (hmain.mp hchk).1 r hr
    have hc9 : (specRowVals g r).toFinset.card = 9 := by rw [hset]; decide
    have hle := List.toFinset_card_le (specRowVals g r)
    have hshort : (specRowVals g r).length ≤ 8 := by
      unfold specRowVals
      exact filterMap_range_nine_short _ c hc hnone
    omega
  · intro r hr hlen
    cases hcr : check_row g r with
    | false => rfl
    | true =>
      exfalso
      have hset := (check_row_iff g hw r).mp hcr
      have hc9 : (specRowVals g r).toFinset.card = 9 := by rw [hset]; decide
      have hle := List.toFinset_card_le (specRowVals g r)
      omega
  · intro c hc hlen
    cases hcr : check_column g c with
    | false => rfl
    | true =>
      exfalso
      have hset := (check_col_iff g hw c hc).mp hcr
      have hc9 : (specColVals g c).toFinset.card = 9 := by rw [hset]; decide
      have hle := List.toFinset_card_le (specColVals g c)
      omega
  · intro bi hbi bj hbj hlen
    cases hcr : check_nine_square g bj bi with
    | false => rfl
    | true =>
      exfalso
      have hset := (check_square_iff g hw bj bi hbj hbi).mp hcr
      have hc9 : (specBlockVals g bi bj).toFinset.card = 9 := by rw [hset]; decide
      have hle := List.toFinset_card_le (specBlockVals g bi bj)
      omega

/-- C6 witness: applying the characterization to the board built from
`fullInput`, whose `check` is true, yields that row 0's non-empty values are
exactly `{1, ..., 9}`. -/
theorem C6_witness :
    (specRowVals (Sudoku.init fullInput).solution 0).toFinset = nineDigits :=
  ((C6_check_iff_all_regions_complete (Sudoku.init fullInput).solution
    (by decide)).1.mp (by decide)).1 0 (by decide)

/-! ## C7: region queries against the external input -/

/-- Folding `min` over lists that all have length `n` starting from `n`. -/
theorem foldl_min_const (l : List (List (Option Nat))) (n : Nat)
    (h : ∀ r ∈ l, r.length = n) :
    l.foldl (fun m r => min m r.length) n = n := by
  induction l with
  | nil => rfl
  | cons x xs ih =>
    simp only [List.foldl_cons]
    rw [h x (by simp), Nat.min_self]
    exact ih (fun r hr => h r (by simp [hr]))

/-- On a well-formed 9×9 input, `zip(*board)` is the 9-column transpose. -/
theorem pyZip_wf (b : List (List (Option Nat))) (hb : wf b) :
    pyZip b = (List.range 9).map (fun k => b.map (fun r => r.getD k none)) := by
  obtain ⟨hlen, hrows⟩ := hb
  cases b with
  | nil => simp at hlen
  | cons r0 rest =>
    have hfold : rest.foldl (fun m r => min m r.length) r0.length = 9 := by
      have h0 : r0.length = 9 := hrows r0 (by simp)
      rw [h0]
      exact foldl_min_const rest 9 (fun r hr => hrows r (by simp [hr]))
    show (List.range (rest.foldl (fun m r => min m r.length) r0.length)).map
        (fun k => (r0 :: rest).map (fun r => r.getD k none)) = _
    rw [hfold]

/-- The constructed working grid, column by column. -/
theorem init_solution (b : List (List (Option Nat))) (hb : wf b) :
    (Sudoku.init b).solution
      = (List.range 9).map (fun k => b.map (fun r => coerceCell (r.getD k none))) := by
  show (pyZip b).map (List.map coerceCell) = _
  rw [pyZip_wf b hb]
  simp [List.map_map, Function.comp]

/-- The constructed working grid is well-formed. -/
theorem init_wf (b : List (List (Option Nat))) (hb : wf b) :
    wf (Sudoku.init b).solution := by
  rw [init_solution b hb]
  constructor
  · simp
  · intro col hcol
    simp only [List.mem_map, List.mem_range] at hcol
    obtain ⟨k, hk, rfl⟩ := hcol
    simp [hb.1]

/-- The cell of the constructed working grid at external row `r`, column `c`
is the coerced input cell. -/
theorem init_cell (b : List (List (Option Nat))) (hb : wf b) (r c : Nat)
    (hr : r < 9) (hc : c < 9) :
    cellExt (Sudoku.init b).solution r c
      = coerceCell ((b.getD r []).getD c none) := by
  obtain ⟨hlen, hrows⟩ := hb
  rw [cellExt, getCell, init_solution b ⟨hlen, hrows⟩]
  have h1 : ((List.range 9).map
        (fun k => b.map (fun row => coerceCell (row.getD k none)))).getD c []
      = b.map (fun row => coerceCell (row.getD c none)) := by
    rw [List.getD_eq_getElem _ [] (by simp; omega)]
    simp
  rw [h1]
  rw [List.getD_eq_getElem _ none (by simp [hlen]; omega)]
  simp only [List.getElem_map]
  rw [List.getD_eq_getElem b [] (by omega)]

/-- C7 amended: on the board constructed from any well-formed 9×9 input `b`,
`get_row r` is external row `r` left-to-right and `get_column c` is external
column `c` top-to-bottom (both as claimed), while `get_nine_square (x, y)`
returns the block covering external *columns* `3x..3x+2` and *rows*
`3y..3y+2`, read column by column (not rows `3x..` and columns `3y..` in
row-major order, as the original claim said). -/
theorem C7_region_queries_on_constructed_board (b : List (List (Option Nat)))
    (hb : wf b) :
    (∀ r, r < 9 → get_row (Sudoku.init b).solution r = (b.getD r []).map coerceCell)
      ∧ (∀ c, c < 9 → get_column (Sudoku.init b).solution c
          = b.map (fun row => coerceCell (row.getD c none)))
      ∧ (∀ x y, x < 3 → y < 3 →
          (get_nine_square (Sudoku.init b).solution x y).flatten
            = blockColMajor b x y) := by
  have hwS : wf (Sudoku.init b).solution := init_wf b hb
  have hrowlen : ∀ r, r < 9 → (b.getD r []).length = 9 := by
    intro r hr
    have hr9 : r < b.length := by rw [hb.1]; exact hr
    rw [List.getD_eq_getElem b [] hr9]
    exact hb.2 _ (List.getElem_mem hr9)
  refine ⟨?_, ?_, ?_⟩
  · intro r hr
    rw [get_row_eq_spec _ hwS.1 r,
      map_eq_range_map coerceCell none (b.getD r []) 9 (hrowlen r hr)]
    unfold specRowCells
    apply List.map_congr_left
    intro c hcm
    have hc : c < 9 := by simpa using hcm
    exact init_cell b hb r c hr hc
  · intro c hc
    show (Sudoku.init b).solution.getD c [] = _
    rw [init_solution b hb]
    rw [List.getD_eq_getElem _ [] (by simp; omega)]
    simp
  · intro x y hx hy
    rw [flatten_block_eq _ hwS x y hx hy]
    rw [init_cell b hb (3 * y) (3 * x) (by omega) (by omega),
      init_cell b hb (3 * y + 1) (3 * x) (by omega) (by omega),
      init_cell b hb (3 * y + 2) (3 * x) (by omega) (by omega),
      init_cell b hb (3 * y) (3 * x + 1) (by omega) (by omega),
      init_cell b hb (3 * y + 1) (3 * x + 1) (by omega) (by omega),
      init_cell b hb (3 * y + 2) (3 * x + 1) (by omega) (by omega),
      init_cell b hb (3 * y) (3 * x + 2) (by omega) (by omega),
      init_cell b hb (3 * y + 1) (3 * x + 2) (by omega) (by omega),
      init_cell b hb (3 * y + 2) (3 * x + 2) (by omega) (by omega)]
    unfold blockColMajor
    simp [List.range_succ]

/-- C7 witness: on the all-distinct board `b7`, `get_row 0` returns input row
0 verbatim. -/
theorem C7_witness :
    get_row (Sudoku.init b7).solution 0 = (b7.getD 0 []).map coerceCell :=
  (C7_region_queries_on_constructed_board b7 (by decide)).1 0 (by decide)
